import Mathlib

/-!
Shallow embedding of `src/validation/schema.js` from graph-cli: a rule-based
validator for GraphQL entity schemas.  JavaScript values that can only arise
from the parsed GraphQL AST are modelled by the inductive types below;
functions that can throw at runtime (unbound identifiers, property access on
`undefined`) are modelled in the `Except String` monad, everything else is a
pure function.  Loading and parsing the schema text are external collaborators
of the core, so `validateSchema` here takes the parsed definition list.
-/

namespace GraphSchema

/-- Source location attached to AST nodes (`loc` in the JS AST).
`{start, end}` in JS; `end` is a Lean keyword so the second field is `stop`. -/
structure Loc where
  start : Nat
  stop : Nat
deriving DecidableEq, Repr

/-- GraphQL type expressions: `Named(name) | List(inner) | NonNull(inner)`. -/
inductive TypeExpr where
  | named (name : String)
  | list (ofType : TypeExpr)
  | nonNull (ofType : TypeExpr)
deriving DecidableEq, Repr

/-- AST value literals (`StringValue`, `IntValue`, `ListValue`, `ObjectValue`).
Object fields are triples of field name, the name's location and the value. -/
inductive Value where
  | stringV (val : String)
  | intV (val : Int)
  | listV (values : List Value)
  | objectV (fields : List (String × Loc × Value))
deriving Repr

/-- An argument of a directive or a field: `{name, value}`. -/
structure Argument where
  name : String
  value : Value
deriving Repr

/-- A directive attached to a definition or a field. -/
structure Directive where
  name : String
  nameLoc : Loc
  loc : Loc
  arguments : List Argument
deriving Repr

/-- A field of a type definition. -/
structure Field where
  name : String
  loc : Loc
  type : TypeExpr
  arguments : List Argument
  directives : List Directive
deriving Repr

/-- A top-level definition; `kind` is the JS AST kind string
(`ObjectTypeDefinition`, `EnumTypeDefinition`, ...). -/
structure Definition where
  kind : String
  name : String
  nameLoc : Loc
  loc : Loc
  fields : List Field
  directives : List Directive
deriving Repr

/-- A validation diagnostic: `{loc, entity, message}`. -/
structure Diagnostic where
  loc : Loc
  entity : String
  message : String
deriving DecidableEq, Repr

/-- The `kind` string of a type expression node, as in the JS AST. -/
def kindOf : TypeExpr → String
  | .named _ => "NamedType"
  | .list _ => "ListType"
  | .nonNull _ => "NonNullType"

/-- The `kind` string of a value node, as in the JS AST. -/
def valueKind : Value → String
  | .stringV _ => "StringValue"
  | .intV _ => "IntValue"
  | .listV _ => "ListValue"
  | .objectV _ => "ObjectValue"

/-- JS `type.name.value`: defined on `NamedType` nodes only; on a wrapper node
`type.name` is `undefined` and reading `.value` throws a `TypeError`. -/
def tyName : TypeExpr → Except String String
  | .named n => Except.ok n
  | _ => Except.error "TypeError: Cannot read properties of undefined (reading value)"

/-- JS `type.type`: the wrapped type of a `ListType`/`NonNullType` node; a
`NamedType` node has no `type` property, so reading `.kind` on it throws. -/
def tyChild : TypeExpr → Except String TypeExpr
  | .list t => Except.ok t
  | .nonNull t => Except.ok t
  | .named _ => Except.error "TypeError: Cannot read properties of undefined (reading kind)"

/-- JS `value.value` on value nodes: strings and ints carry a value, list and
object nodes have no `value` property (`undefined`). -/
def valueStringVal : Value → Option String
  | .stringV s => some s
  | .intV i => some (toString i)
  | _ => none

/-- Builtin scalar types. -/
def BUILTIN_SCALAR_TYPES : List String :=
  ["Boolean", "Int", "BigDecimal", "String", "BigInt", "Bytes", "ID"]

/-- As a convention, the type `_Schema_` is reserved to define imports on. -/
def RESERVED_TYPE : String := "_Schema_"

/-- Matcher for the regex `(u|uint)(8|16|24)` anchored on both sides: its
language is the finite set of concatenations of a prefix and a width. -/
def matchUUint8_16_24 (s : String) : Bool :=
  ["u", "uint"].any fun p => ["8", "16", "24"].any fun w => s == p ++ w

/-- Matcher for the anchored regex `(i|int)(8|16|24|32)`. -/
def matchIInt8_32 (s : String) : Bool :=
  ["i", "int"].any fun p => ["8", "16", "24", "32"].any fun w => s == p ++ w

/-- Matcher for the anchored regex `(u|uint)32`. -/
def matchUUint32 (s : String) : Bool :=
  ["u", "uint"].any fun p => s == p ++ "32"

/-- The widths listed in the final suggestion-table regex: 40, 48, ..., 256. -/
def bigWidths : List Nat :=
  [40, 48, 56, 64, 72, 80, 88, 96, 104, 112, 120, 128, 136, 144, 152,
   160, 168, 176, 184, 192, 200, 208, 216, 224, 232, 240, 248, 256]

/-- Matcher for the anchored regex `(u|uint|i|int)(40|48|...|256)`. -/
def matchBigIntWidths (s : String) : Bool :=
  ["u", "uint", "i", "int"].any fun p =>
    bigWidths.any fun w => s == p ++ toString w

/-- Type suggestions for common mistakes: an ordered list of
(matcher, suggestion) pairs; string patterns compare for equality, regex
patterns are the anchored finite-language matchers above.  Order matters. -/
def TYPE_SUGGESTIONS : List ((String → Bool) × String) :=
  [ (fun s => s == "Address", "Bytes"),
    (fun s => s == "address", "Bytes"),
    (fun s => s == "bytes", "Bytes"),
    (fun s => s == "string", "String"),
    (fun s => s == "bool", "Boolean"),
    (fun s => s == "boolean", "Boolean"),
    (fun s => s == "Bool", "Boolean"),
    (fun s => s == "float", "BigDecimal"),
    (fun s => s == "Float", "BigDecimal"),
    (fun s => s == "int", "Int"),
    (fun s => s == "uint", "BigInt"),
    (matchUUint8_16_24, "Int"),
    (matchIInt8_32, "Int"),
    (matchUUint32, "BigInt"),
    (matchBigIntWidths, "BigInt") ]

/-- Returns a GraphQL type suggestion for a given input type; `none` if no
suggestion is available.  First matching table entry wins. -/
def typeSuggestion (typeName : String) : Option String :=
  ((TYPE_SUGGESTIONS.filter fun p => p.1 typeName).map fun p => p.2).head?

/-- `validateEntityDirective`: a non-reserved object type must carry
an `@entity` directive. -/
def validateEntityDirective (d : Definition) : List Diagnostic :=
  if (d.directives.find? fun dir => dir.name == "entity").isSome then []
  else [⟨d.loc, d.name, "Defined without @entity directive"⟩]

/-- `validateEntityID`: the entity must have a field `id` of exactly the type
`ID!` (a `NonNullType` wrapping the named type `ID`). -/
def validateEntityID (d : Definition) : List Diagnostic :=
  match d.fields.find? fun f => f.name == "id" with
  | none => [⟨d.loc, d.name, "Missing field: id: ID!"⟩]
  | some idField =>
    match idField.type with
    | .nonNull (.named "ID") => []
    | _ => [⟨idField.loc, d.name, "Field 'id': Entity IDs must be of type ID!"⟩]

/-- Message of the (unreachable) first branch of `validateListFieldType`. -/
def listBangMsg (fname tname : String) : String :=
  "Field '" ++ fname ++ "':\nField has type [" ++ tname ++ "]! but\nmust have type ["
    ++ tname ++ "!]!\n\nReason: Lists with null elements are not supported."

/-- Message of the second branch of `validateListFieldType`. -/
def listPlainMsg (fname tname : String) : String :=
  "Field '" ++ fname ++ "':\nField has type [" ++ tname ++ "] but\nmust have type ["
    ++ tname ++ "!]\n\nReason: Lists with null elements are not supported."

/-- The second conditional of `validateListFieldType`:
`field.type.kind === 'ListType' && field.type.type.kind !== 'NonNullType'`,
whose diagnostic message reads `field.type.type.name.value` (which throws when
the list element is itself a list). -/
def validateListPlainCheck (d : Definition) (field : Field) :
    Except String (List Diagnostic) := do
  if kindOf field.type == "ListType" then
    let inner ← tyChild field.type
    if kindOf inner != "NonNullType" then
      let nm ← tyName inner
      pure [⟨field.loc, d.name, listPlainMsg field.name nm⟩]
    else
      pure []
  else
    pure []

/-- Body of the first conditional of `validateListFieldType`, entered when
`field.type.kind === 'NonNullType' && field.type.kind === 'ListType'` (which
is impossible, so this is dead code, kept for fidelity); on its failing
sub-condition JS falls through to the second conditional. -/
def validateListBangBranch (d : Definition) (field : Field) :
    Except String (List Diagnostic) := do
  let inner ← tyChild field.type
  if kindOf inner != "NonNullType" then
    let nm ← tyName inner
    pure [⟨field.loc, d.name, listBangMsg field.name nm⟩]
  else
    validateListPlainCheck d field

/-- `validateListFieldType`: rejects list fields whose element type is not
NonNull-wrapped.  The first branch tests
`field.type.kind === 'NonNullType' && field.type.kind === 'ListType'`, a
contradictory conjunction on the same property, so only the plain-list branch
can ever fire. -/
def validateListFieldType (d : Definition) (field : Field) :
    Except String (List Diagnostic) :=
  if kindOf field.type == "NonNullType" && kindOf field.type == "ListType" then
    validateListBangBranch d field
  else
    validateListPlainCheck d field

mutual

/-- `innerTypeFromList` inside `unwrapType`. -/
def innerTypeFromList : TypeExpr → TypeExpr
  | .list (.nonNull t) => innerTypeFromNonNull (.nonNull t)
  | .list t => t
  | t => t

/-- `innerTypeFromNonNull` inside `unwrapType`. -/
def innerTypeFromNonNull : TypeExpr → TypeExpr
  | .nonNull (.list t) => innerTypeFromList (.list t)
  | .nonNull t => t
  | t => t

end

/-- `unwrapType`: obtain the inner-most type from a field type by peeling
alternating `NonNull`/`List` wrappers. -/
def unwrapType (type : TypeExpr) : TypeExpr :=
  match type with
  | .nonNull _ => innerTypeFromNonNull type
  | .list _ => innerTypeFromList type
  | t => t

/-- `gatherLocalTypes`: names of all object, enum and interface definitions. -/
def gatherLocalTypes (defs : List Definition) : List String :=
  (defs.filter fun d =>
      d.kind == "ObjectTypeDefinition" || d.kind == "EnumTypeDefinition"
        || d.kind == "InterfaceTypeDefinition").map
    fun d => d.name

/-- Does the directive carry an argument named `types`? -/
def directiveHasTypesArg (dir : Directive) : Bool :=
  (dir.arguments.find? fun a => a.name == "types").isSome

/-- Is the directive an `@import` with a `types` argument? -/
def isImportWithTypes (dir : Directive) : Bool :=
  dir.name == "import" && directiveHasTypesArg dir

/-- The name an element of the `types` list contributes: a string as-is, an
object with an `as` string field contributes the alias (the extraction reads
the first `as` field's `value.value`), anything else `undefined`. -/
def importedTypeName (v : Value) : Option String :=
  match v with
  | .stringV s => some s
  | .objectV fs =>
    if (fs.find? fun f => f.1 == "as" && valueKind f.2.2 == "StringValue").isSome then
      match fs.find? fun f => f.1 == "as" with
      | some f => valueStringVal f.2.2
      | none => none
    else none
  | _ => none

/-- The final flattening `reduce` of `gatherImportedTypes`: push only truthy
names (in JS the empty string is falsy and gets dropped). -/
def flattenImported (nested : List (List (List (Option String)))) : List String :=
  nested.foldl
    (fun flattened types_args =>
      flattened ++
        types_args.foldl
          (fun fl types_arg =>
            types_arg.foldl
              (fun fl2 t =>
                match t with
                | some s => if s == "" then fl2 else fl2 ++ [s]
                | none => fl2)
              fl)
          [])
    []

/-- `gatherImportedTypes`: names imported via `@import` directives on the
reserved `_Schema_` type.  The filter only requires a `types` argument to be
present, while the inner `find` additionally requires it to be a `ListValue`;
when the argument is not a list the `find` yields `undefined` and the
subsequent `arg.value.values` access throws a `TypeError`. -/
def gatherImportedTypes (defs : List Definition) : Except String (List String) := do
  let schemaDefs := defs.filter fun d =>
    d.kind == "ObjectTypeDefinition" && d.name == RESERVED_TYPE
      && (d.directives.find? isImportWithTypes).isSome
  let nested ← schemaDefs.mapM fun d => do
    let imps := d.directives.filter isImportWithTypes
    let args := imps.map fun imp =>
      imp.arguments.find? fun a => a.name == "types" && valueKind a.value == "ListValue"
    args.mapM fun arg =>
      match arg with
      | some a =>
        match a.value with
        | .listV vs => pure (vs.map importedTypeName)
        | _ => Except.error "TypeError: Cannot read properties of undefined (reading map)"
      | none => Except.error "TypeError: Cannot read properties of undefined (reading value)"
  pure (flattenImported nested)

/-- `entityTypeByName`: the first interface or object definition carrying an
`@entity` directive with the given name. -/
def entityTypeByName (defs : List Definition) (name : String) : Option Definition :=
  ((defs.filter fun d =>
        d.kind == "InterfaceTypeDefinition" || d.kind == "ObjectTypeDefinition").filter
      fun d => (d.directives.find? fun dir => dir.name == "entity").isSome).find?
    fun d => d.name == name

/-- The unknown-type message of `validateInnerFieldType`, with the optional
`Did you mean` suffix appended exactly when a suggestion exists. -/
def unknownTypeMessage (fname typeName : String) : String :=
  ("Field '" ++ fname ++ "': ") ++ ("Unknown type '" ++ typeName ++ "'")
    ++ ("." ++
        match typeSuggestion typeName with
        | some s => " " ++ ("Did you mean '" ++ s ++ "'?")
        | none => "")

/-- `validateInnerFieldType`: resolve the inner-most named type of a field
against builtins, local types and imported types. -/
def validateInnerFieldType (defs : List Definition) (d : Definition) (field : Field) :
    Except String (List Diagnostic) :=
  match tyName (unwrapType field.type) with
  | .error e => .error e
  | .ok typeName =>
    match gatherImportedTypes defs with
    | .error e => .error e
    | .ok imported =>
      let availableTypes := BUILTIN_SCALAR_TYPES ++ gatherLocalTypes defs ++ imported
      if availableTypes.contains typeName then
        Except.ok []
      else
        Except.ok [⟨field.loc, d.name, unknownTypeMessage field.name typeName⟩]

/-- `validateEntityFieldType`: list-shape check then inner-type check. -/
def validateEntityFieldType (defs : List Definition) (d : Definition) (field : Field) :
    Except String (List Diagnostic) := do
  let a ← validateListFieldType d field
  let b ← validateInnerFieldType defs d field
  pure (a ++ b)

/-- `validateEntityFieldArguments`: entity fields may not take arguments. -/
def validateEntityFieldArguments (_defs : List Definition) (d : Definition)
    (field : Field) : List Diagnostic :=
  if field.arguments.length > 0 then
    [⟨field.loc, d.name, "Field '" ++ field.name ++ "': Field arguments are not supported."⟩]
  else []

/-- Message for a malformed `@derivedFrom` argument list. -/
def derivedArgMsg (fname : String) : String :=
  "Field '" ++ fname ++ "': @derivedFrom directive must have a 'field' argument"

/-- Message for a non-string `@derivedFrom` `field` argument value. -/
def derivedValueMsg (fname : String) : String :=
  "Field '" ++ fname ++ "': Value of the @derivedFrom 'field' argument must be a string"

/-- Message when the named back-reference field is missing on the target. -/
def derivedNoFieldMsg (fname argval tname : String) : String :=
  "Field '" ++ fname ++ "': @derivedFrom field '" ++ argval
    ++ "' does not exist on type '" ++ tname ++ "'"

/-- Message when the back-reference field does not point back at the origin. -/
def derivedWrongTypeMsg (fname argval tname dname : String) : String :=
  "Field '" ++ fname ++ "': @derivedFrom field '" ++ argval ++ "' on type '"
    ++ tname ++ "' must have the type '" ++ dname ++ "', '" ++ dname
    ++ "!' or '[" ++ dname ++ "!]!'"

/-- `validateDerivedFromDirective`: sequential precondition checks with early
return; the target resolution reads `unwrapType(field.type).name.value`, and
the back-reference check reads the back-reference field's unwrapped
`.name.value`, both of which throw on a non-Named node. -/
def validateDerivedFromDirective (defs : List Definition) (d : Definition)
    (field : Field) (directive : Directive) : Except String (List Diagnostic) :=
  match directive.arguments with
  | [arg] =>
    if arg.name == "field" then
      match arg.value with
      | .stringV argval =>
        match tyName (unwrapType field.type) with
        | .error e => .error e
        | .ok tname =>
          match entityTypeByName defs tname with
          | none => Except.ok []
          | some targetEntity =>
            match targetEntity.fields.find? fun tf => tf.name == argval with
            | none =>
              Except.ok [⟨directive.loc, d.name,
                derivedNoFieldMsg field.name argval targetEntity.name⟩]
            | some derivedFromField =>
              match tyName (unwrapType derivedFromField.type) with
              | .error e => .error e
              | .ok bname =>
                match entityTypeByName defs bname with
                | some backRefEntity =>
                  if backRefEntity.name == d.name then Except.ok []
                  else
                    Except.ok [⟨directive.loc, d.name,
                      derivedWrongTypeMsg field.name argval targetEntity.name d.name⟩]
                | none =>
                  Except.ok [⟨directive.loc, d.name,
                    derivedWrongTypeMsg field.name argval targetEntity.name d.name⟩]
      | _ => pure [⟨directive.loc, d.name, derivedValueMsg field.name⟩]
    else pure [⟨directive.loc, d.name, derivedArgMsg field.name⟩]
  | _ => pure [⟨directive.loc, d.name, derivedArgMsg field.name⟩]

/-- `validateEntityFieldDirective`: only `derivedFrom` directives are checked. -/
def validateEntityFieldDirective (defs : List Definition) (d : Definition)
    (field : Field) (directive : Directive) : Except String (List Diagnostic) :=
  if directive.name == "derivedFrom" then
    validateDerivedFromDirective defs d field directive
  else pure []

/-- `validateEntityFieldDirectives`: fold over the field's directives. -/
def validateEntityFieldDirectives (defs : List Definition) (d : Definition)
    (field : Field) : Except String (List Diagnostic) :=
  field.directives.foldlM
    (fun errors directive => do
      let e ← validateEntityFieldDirective defs d field directive
      pure (errors ++ e))
    []

/-- `validateEntityFields`: per-field type, argument and directive checks. -/
def validateEntityFields (defs : List Definition) (d : Definition) :
    Except String (List Diagnostic) :=
  d.fields.foldlM
    (fun errors field => do
      let a ← validateEntityFieldType defs d field
      let b := validateEntityFieldArguments defs d field
      let c ← validateEntityFieldDirectives defs d field
      pure (errors ++ a ++ b ++ c))
    []

/-- `validateNoImportDirective`: `@import` is only allowed on `_Schema_`. -/
def validateNoImportDirective (d : Definition) : List Diagnostic :=
  if (d.directives.find? fun dir => dir.name == "import").isSome then
    [⟨d.nameLoc, d.name, "@import directive only allowed on '" ++ RESERVED_TYPE ++ "' type"⟩]
  else []

/-- Shared message for malformed `types` entries of an `@import` directive. -/
def importShapeMsg : String :=
  "Import must be one of \"Name\" or \x7b name: \"Name\", as: \"Alias\" \x7d"

/-- `validateImportDirectiveType` together with the dispatch table
`importDirectiveTypeValidators`: a `types` list element must be a string or a
two-field object with string-valued `name`/`as` fields. -/
def validateImportDirectiveType (d : Definition) (directive : Directive)
    (type : Value) : List Diagnostic :=
  match type with
  | .stringV _ => []
  | .objectV fs =>
    if fs.length != 2 then
      [⟨directive.nameLoc, d.name, importShapeMsg⟩]
    else
      fs.foldl
        (fun errors f =>
          if !(["name", "as"].contains f.1) then
            errors ++ [⟨directive.nameLoc, d.name,
              "@import field '" ++ f.1 ++ "' invalid, may only be one of: [name, as]"⟩]
          else if valueKind f.2.2 != "StringValue" then
            errors ++ [⟨directive.nameLoc, d.name, "@import fields [name, as] must be strings"⟩]
          else errors)
        []
  | _ => [⟨directive.nameLoc, d.name, importShapeMsg⟩]

/-- `validateImportDirectiveArgumentTypes`: the `types` argument value must be
a list; each element is checked individually. -/
def validateImportDirectiveArgumentTypes (d : Definition) (directive : Directive)
    (argument : Argument) : List Diagnostic :=
  match argument.value with
  | .listV vs =>
    vs.foldl (fun errors t => errors ++ validateImportDirectiveType d directive t) []
  | _ => [⟨directive.nameLoc, d.name, "@import argument 'types' must be an list"⟩]

/-- First rejection message of the `from` argument field checks. -/
def fromFieldNameMsg : String :=
  "@import argument 'from' must be one of \x7b name: \"Name\" \x7d or \x7b id: \"ID\" \x7d"

/-- Second rejection message of the `from` argument field checks. -/
def fromFieldValueMsg : String :=
  "@import argument 'from' must be one of \x7b name: \"Name\" \x7d or \x7b id: \"ID\" \x7d with string values"

/-- `validateImportDirectiveArgumentFrom`: the `from` argument must be an
object with exactly one string-valued `name` or `id` field. -/
def validateImportDirectiveArgumentFrom (d : Definition) (directive : Directive)
    (argument : Argument) : List Diagnostic :=
  match argument.value with
  | .objectV fs =>
    if fs.length != 1 then
      [⟨directive.nameLoc, d.name, "@import argument 'from' must have an 'id' or 'name' field"⟩]
    else
      fs.foldl
        (fun errors f =>
          if !(["name", "id"].contains f.1) then
            errors ++ [⟨f.2.1, d.name, fromFieldNameMsg⟩]
          else if valueKind f.2.2 != "StringValue" then
            errors ++ [⟨f.2.1, d.name, fromFieldValueMsg⟩]
          else errors)
        []
  | _ => [⟨directive.nameLoc, d.name, "@import argument 'from' must be an object"⟩]

/-- `validateImportDirectiveTypes`: the `types` argument is required. -/
def validateImportDirectiveTypes (d : Definition) (directive : Directive) :
    List Diagnostic :=
  match directive.arguments.find? fun a => a.name == "types" with
  | some types => validateImportDirectiveArgumentTypes d directive types
  | none => [⟨directive.nameLoc, d.name, "@import argument 'types' must be specified"⟩]

/-- `validateImportDirectiveFrom`: the `from` argument is required. -/
def validateImportDirectiveFrom (d : Definition) (directive : Directive) :
    List Diagnostic :=
  match directive.arguments.find? fun a => a.name == "from" with
  | some from_ => validateImportDirectiveArgumentFrom d directive from_
  | none => [⟨directive.nameLoc, d.name, "@import argument 'from' must be specified"⟩]

/-- `validateImportDirectiveName`: a directive on `_Schema_` must be named
`import`.  The source's rejection branch builds its diagnostic from an
identifier `def` that is bound nowhere in scope, so evaluating the branch
throws `ReferenceError: def is not defined` instead of producing the intended
diagnostic; the embedding models that throw. -/
def validateImportDirectiveName (directive : Directive) :
    Except String (List Diagnostic) :=
  if directive.name != "import" then
    Except.error "ReferenceError: def is not defined"
  else pure []

/-- `validateImportDirective`: name, `types` and `from` checks concatenated. -/
def validateImportDirective (d : Definition) (directive : Directive) :
    Except String (List Diagnostic) := do
  let a ← validateImportDirectiveName directive
  let b := validateImportDirectiveTypes d directive
  let c := validateImportDirectiveFrom d directive
  pure (a ++ b ++ c)

/-- `validateSubgraphSchemaDirectives`: fold `validateImportDirective` over the
reserved type's directives. -/
def validateSubgraphSchemaDirectives (d : Definition) :
    Except String (List Diagnostic) :=
  d.directives.foldlM
    (fun errors directive => do
      let e ← validateImportDirective d directive
      pure (errors ++ e))
    []

/-- `validateTypeHasNoFields`: the reserved type must carry no fields. -/
def validateTypeHasNoFields (d : Definition) : List Diagnostic :=
  if d.fields.length != 0 then
    [⟨d.nameLoc, d.name, d.name ++ " type is not allowed any fields by convention"⟩]
  else []

/-- `validateAtLeastOneExtensionField`: a no-op placeholder. -/
def validateAtLeastOneExtensionField (_d : Definition) : List Diagnostic := []

/-- `validateTypeDefinition`: dispatch on the definition kind; object types
split on the reserved `_Schema_` name, extensions are a no-op, all other
kinds produce no diagnostics. -/
def validateTypeDefinition (defs : List Definition) (d : Definition) :
    Except String (List Diagnostic) :=
  if d.kind == "ObjectTypeDefinition" then
    if d.name == RESERVED_TYPE then do
      let a ← validateSubgraphSchemaDirectives d
      pure (a ++ validateTypeHasNoFields d)
    else do
      let a := validateEntityDirective d
      let b := validateEntityID d
      let c ← validateEntityFields defs d
      pure (a ++ b ++ c ++ validateNoImportDirective d)
  else if d.kind == "ObjectTypeExtension" then
    pure (validateAtLeastOneExtensionField d)
  else pure []

/-- `validateTypeDefinitions`: fold over all definitions. -/
def validateTypeDefinitions (defs : List Definition) :
    Except String (List Diagnostic) :=
  defs.foldlM
    (fun errors d => do
      let e ← validateTypeDefinition defs d
      pure (errors ++ e))
    []

/-- The collision message. -/
def collisionMsg (t : String) : String :=
  "Type '" ++ t ++ "' is defined more than once"

/-- The scan inside `validateNamingCollisionsInTypes`, with the `seen` and
`conflicting` sets threaded explicitly (membership in a list models
`immutable.Set` membership). -/
def collisionGo : List String → List String → List String → List Diagnostic
  | [], _, _ => []
  | t :: rest, seen, conflicting =>
    if t ∈ seen ∧ t ∉ conflicting then
      ⟨⟨1, 1⟩, t, collisionMsg t⟩ :: collisionGo rest seen (t :: conflicting)
    else
      collisionGo rest (t :: seen) conflicting

/-- `validateNamingCollisionsInTypes`: one diagnostic per repeated name. -/
def validateNamingCollisionsInTypes (types : List String) : List Diagnostic :=
  collisionGo types [] []

/-- `validateNamingCollisions`: local names then imported names. -/
def validateNamingCollisions (local_ imported : List String) : List Diagnostic :=
  validateNamingCollisionsInTypes (local_ ++ imported)

/-- `validateSchema` restricted to its core (loading and parsing the schema
text are external): per-definition checks followed by the collision pass. -/
def validateSchema (defs : List Definition) : Except String (List Diagnostic) := do
  let a ← validateTypeDefinitions defs
  let imported ← gatherImportedTypes defs
  pure (a ++ validateNamingCollisions (gatherLocalTypes defs) imported)

end GraphSchema

namespace GraphSchema

/-! ### Concrete schema fixtures used by the claim theorems -/

/-- A zero location for fixtures. -/
def l0 : Loc := ⟨0, 0⟩

/-- An `id: ID!` field. -/
def idFieldOK : Field := ⟨"id", l0, .nonNull (.named "ID"), [], []⟩

/-- A `_Schema_` definition carrying a single `@entity` directive (any
directive not named `import`). -/
def c1dir : Directive := ⟨"entity", l0, l0, []⟩

/-- The `_Schema_` definition for the C1 scenario. -/
def c1def : Definition := ⟨"ObjectTypeDefinition", "_Schema_", l0, l0, [], [c1dir]⟩

/-- An entity definition whose fields exercise the three list shapes. -/
def c2def : Definition := ⟨"ObjectTypeDefinition", "C2", l0, l0, [], [⟨"entity", l0, l0, []⟩]⟩

/-- A field of type `[String]!`. -/
def c2bang : Field := ⟨"f", l0, .nonNull (.list (.named "String")), [], []⟩

/-- A field of type `[String]`. -/
def c2plain : Field := ⟨"f", l0, .list (.named "String"), [], []⟩

/-- A field of type `[String!]!`. -/
def c2good : Field := ⟨"f", l0, .nonNull (.list (.nonNull (.named "String"))), [], []⟩

/-- A `_Schema_` definition with `@import(types: "Foo", from: {name: "g"})`:
the `types` argument is present but not a list. -/
def c3def : Definition :=
  ⟨"ObjectTypeDefinition", "_Schema_", l0, l0, [],
    [⟨"import", l0, l0,
      [⟨"types", .stringV "Foo"⟩, ⟨"from", .objectV [("name", l0, .stringV "g")]⟩]⟩]⟩

end GraphSchema

namespace GraphSchema

/-- C1: a `_Schema_` type carrying a directive that is not `@import`.  The
claim says a diagnostic is produced and returned; the code instead throws. -/
theorem c1_schema_nonimport_directive_throws :
    validateImportDirectiveName c1dir = Except.error "ReferenceError: def is not defined" ∧
    validateSchema [c1def] = Except.error "ReferenceError: def is not defined" :=
  ⟨rfl, rfl⟩

/-- C2: list-shape validation of entity field types.  A `[String]` field gets
exactly one diagnostic recommending `[String!]` and a `[String!]!` field gets
none, but — against the claim — a `[String]!` field also gets none, because
the first branch of `validateListFieldType` tests the contradictory
`field.type.kind === 'NonNullType' && field.type.kind === 'ListType'`. -/
theorem c2_list_bang_branch_dead :
    validateListFieldType c2def c2bang = Except.ok [] ∧
    validateListFieldType c2def c2plain =
      Except.ok [⟨c2plain.loc, c2def.name, listPlainMsg "f" "String"⟩] ∧
    validateListFieldType c2def c2good = Except.ok [] :=
  ⟨rfl, rfl, rfl⟩

/-- C3: an `@import` whose `types` argument is present but not a list.  The
per-definition pass does produce the must-be-a-list diagnostic, but
`validateSchema` then throws inside `gatherImportedTypes` (whose filter only
checks that a `types` argument exists while the inner find demands a
`ListValue`), so the diagnostic sequence is never returned. -/
theorem c3_nonlist_types_throws_in_gather :
    validateTypeDefinitions [c3def] =
      Except.ok [⟨l0, "_Schema_", "@import argument 'types' must be an list"⟩] ∧
    gatherImportedTypes [c3def] =
      Except.error "TypeError: Cannot read properties of undefined (reading value)" ∧
    validateSchema [c3def] =
      Except.error "TypeError: Cannot read properties of undefined (reading value)" :=
  ⟨rfl, rfl, rfl⟩

end GraphSchema

namespace GraphSchema

/-- The first precondition of `validateDerivedFromDirective`: exactly one
argument, named `field` (the source tests its negation and returns early). -/
def derivedFromArgsOk (directive : Directive) : Bool :=
  match directive.arguments with
  | [arg] => arg.name == "field"
  | _ => false

/-- The single argument of the C4 counterexample directive: named `notfield`
with a non-string value, so both precondition checks are violated. -/
def c4arg : Argument := ⟨"notfield", .intV 1⟩

/-- A `@derivedFrom` directive violating both precondition checks. -/
def c4dir : Directive := ⟨"derivedFrom", l0, l0, [c4arg]⟩

/-- The entity owning the C4 field. -/
def c4def : Definition := ⟨"ObjectTypeDefinition", "C4", l0, l0, [], [⟨"entity", l0, l0, []⟩]⟩

/-- The field carrying the C4 directive. -/
def c4field : Field := ⟨"f", l0, .named "C4", [], [c4dir]⟩

/-- C4, counterexample: a `@derivedFrom` directive whose only argument is
named `notfield` (so the exactly-one-`field`-argument check fails) and whose
first argument value is an int (so the string-value check would also fail)
produces only the argument-shape diagnostic, not both: the string-value
diagnostic is absent from the result. -/
theorem c4_both_checks_counterexample :
    c4dir.arguments = [c4arg] ∧
    c4arg.name = "notfield" ∧
    valueKind c4arg.value = "IntValue" ∧
    validateDerivedFromDirective [] c4def c4field c4dir =
      Except.ok [⟨c4dir.loc, c4def.name, derivedArgMsg c4field.name⟩] ∧
    Diagnostic.mk c4dir.loc c4def.name (derivedValueMsg c4field.name) ∉
      [Diagnostic.mk c4dir.loc c4def.name (derivedArgMsg c4field.name)] :=
  ⟨rfl, rfl, rfl, rfl, by decide⟩

/-- C4, amended: when the exactly-one-`field`-argument check fails,
`validateDerivedFromDirective` returns only that diagnostic, whatever the
first argument's value is — the two precondition checks are sequential with
an early return, not independent. -/
theorem c4_amended_argshape_early_return (defs : List Definition) (d : Definition)
    (field : Field) (directive : Directive)
    (h : derivedFromArgsOk directive = false) :
    validateDerivedFromDirective defs d field directive =
      Except.ok [⟨directive.loc, d.name, derivedArgMsg field.name⟩] := by
  unfold validateDerivedFromDirective
  unfold derivedFromArgsOk at h
  match harg : directive.arguments with
  | [] => rfl
  | [arg] =>
    rw [harg] at h
    have h' : (arg.name == "field") = false := h
    simp only [h', Bool.false_eq_true, if_false]
    rfl
  | a :: b :: rest => rfl

/-- Witness for the amended C4 theorem at the concrete counterexample input. -/
theorem c4_amended_witness :
    validateDerivedFromDirective [] c4def c4field c4dir =
      Except.ok [⟨c4dir.loc, c4def.name, derivedArgMsg c4field.name⟩] :=
  c4_amended_argshape_early_return [] c4def c4field c4dir rfl

/-- The entity holding a field of type `[[T]]` for C10. -/
def c10field : Field := ⟨"bad", l0, .list (.list (.named "T")), [], []⟩

/-- The C10 entity definition: `@entity`, a valid id, and the `[[T]]` field. -/
def c10def : Definition :=
  ⟨"ObjectTypeDefinition", "E10", l0, l0, [idFieldOK, c10field], [⟨"entity", l0, l0, []⟩]⟩

/-- C10: for the grammatically valid field type `[[T]]` — a list whose element
is itself a list not wrapped in NonNull — `unwrapType` returns the inner List
node, not a Named node; the inner-type check dereferences the missing `name`
of that List node and errors, and validating an entity containing such a field
throws instead of returning diagnostics. -/
theorem c10_nested_list_unwrap_throws :
    unwrapType (TypeExpr.list (.list (.named "T"))) = TypeExpr.list (.named "T") ∧
    kindOf (unwrapType (TypeExpr.list (.list (.named "T")))) = "ListType" ∧
    tyName (unwrapType c10field.type) =
      Except.error "TypeError: Cannot read properties of undefined (reading value)" ∧
    validateInnerFieldType [c10def] c10def c10field =
      Except.error "TypeError: Cannot read properties of undefined (reading value)" ∧
    validateEntityFields [c10def] c10def =
      Except.error "TypeError: Cannot read properties of undefined (reading value)" ∧
    validateSchema [c10def] =
      Except.error "TypeError: Cannot read properties of undefined (reading value)" :=
  ⟨rfl, rfl, rfl, rfl, rfl, rfl⟩

end GraphSchema

namespace GraphSchema

/-- C7: the entity-id check.  A definition with no `id` field gets exactly the
missing-id diagnostic; one whose `id` field has exactly type `ID!` gets none;
any other `id` type gets exactly the must-be-`ID!` diagnostic. -/
theorem c7_entity_id_check (d : Definition) :
    ((d.fields.find? fun f => f.name == "id") = none →
      validateEntityID d = [⟨d.loc, d.name, "Missing field: id: ID!"⟩]) ∧
    ∀ f, (d.fields.find? fun f2 => f2.name == "id") = some f →
      (f.type = TypeExpr.nonNull (.named "ID") → validateEntityID d = []) ∧
      (f.type ≠ TypeExpr.nonNull (.named "ID") →
        validateEntityID d = [⟨f.loc, d.name, "Field 'id': Entity IDs must be of type ID!"⟩]) := by
  constructor
  · intro h
    unfold validateEntityID
    rw [h]
  · intro f hf
    constructor
    · intro ht
      simp only [validateEntityID, hf, ht]
    · intro ht
      simp only [validateEntityID, hf]

/-- A definition whose `id` field has type `String!`, for the C7 witness. -/
def c7def : Definition :=
  ⟨"ObjectTypeDefinition", "C7", l0, l0,
    [⟨"id", l0, .nonNull (.named "String"), [], []⟩], [⟨"entity", l0, l0, []⟩]⟩

/-- Witness for C7 at a concrete definition with `id: String!`. -/
theorem c7_entity_id_check_witness :
    validateEntityID c7def =
      [⟨l0, "C7", "Field 'id': Entity IDs must be of type ID!"⟩] :=
  ((c7_entity_id_check c7def).2 ⟨"id", l0, .nonNull (.named "String"), [], []⟩ rfl).2
    (by decide)

/-- Does a type expression strictly alternate `List`/`NonNull` wrappers around
a named type (no wrapper directly wrapping a wrapper of the same kind)? -/
def strictAlt : TypeExpr → Bool
  | .named _ => true
  | .list (.list _) => false
  | .list t => strictAlt t
  | .nonNull (.nonNull _) => false
  | .nonNull t => strictAlt t

/-- The innermost named type of a type expression. -/
def innermostNamed : TypeExpr → TypeExpr
  | .named n => .named n
  | .list t => innermostNamed t
  | .nonNull t => innermostNamed t

theorem innermostNamed_is_named : ∀ t : TypeExpr, ∃ n, innermostNamed t = .named n := by
  intro t
  induction t with
  | named n => exact ⟨n, rfl⟩
  | list u ih => simpa [innermostNamed] using ih
  | nonNull u ih => simpa [innermostNamed] using ih

theorem unwrap_alt_aux : ∀ t : TypeExpr,
    (strictAlt (.list t) = true → innerTypeFromList (.list t) = innermostNamed t) ∧
    (strictAlt (.nonNull t) = true → innerTypeFromNonNull (.nonNull t) = innermostNamed t) := by
  intro t
  induction t with
  | named n =>
    exact ⟨fun _ => rfl, fun _ => rfl⟩
  | list u ih =>
    constructor
    · intro h
      simp [strictAlt] at h
    · intro h
      have h' : strictAlt (.list u) = true := h
      have := ih.1 h'
      simp only [innerTypeFromNonNull, innermostNamed]
      exact this
  | nonNull u ih =>
    constructor
    · intro h
      have h' : strictAlt (.nonNull u) = true := h
      have := ih.2 h'
      simp only [innerTypeFromList, innermostNamed]
      exact this
    · intro h
      simp [strictAlt] at h

/-- C9: for every type expression built from a named type by any number of
strictly alternating `List`/`NonNull` wrappers, `unwrapType` returns the
innermost named type. -/
theorem c9_unwrap_alternating (t : TypeExpr) (h : strictAlt t = true) :
    unwrapType t = innermostNamed t ∧ ∃ n, unwrapType t = TypeExpr.named n := by
  have hmain : unwrapType t = innermostNamed t := by
    cases t with
    | named n => rfl
    | list u =>
      have := (unwrap_alt_aux u).1 h
      simpa [unwrapType, innermostNamed] using this
    | nonNull u =>
      have := (unwrap_alt_aux u).2 h
      simpa [unwrapType, innermostNamed] using this
  refine ⟨hmain, ?_⟩
  obtain ⟨n, hn⟩ := innermostNamed_is_named t
  exact ⟨n, hmain.trans hn⟩

/-- Witness for C9 at the concrete type `[[X!]!]!`. -/
theorem c9_unwrap_alternating_witness :
    unwrapType (TypeExpr.nonNull (.list (.nonNull (.list (.nonNull (.named "X")))))) =
      innermostNamed (TypeExpr.nonNull (.list (.nonNull (.list (.nonNull (.named "X")))))) ∧
    ∃ n, unwrapType (TypeExpr.nonNull (.list (.nonNull (.list (.nonNull (.named "X")))))) =
      TypeExpr.named n :=
  c9_unwrap_alternating _ (by decide)

end GraphSchema

namespace GraphSchema

theorem collisionGo_countP (rest : List String) :
    ∀ (seen conflicting : List String), (∀ x ∈ conflicting, x ∈ seen) → ∀ n,
    (collisionGo rest seen conflicting).countP (fun d => d.entity == n) =
      if n ∈ conflicting then 0
      else if n ∈ seen then (if 1 ≤ rest.count n then 1 else 0)
      else (if 2 ≤ rest.count n then 1 else 0) := by
  induction rest with
  | nil =>
    intro seen conflicting hinv n
    simp [collisionGo]
  | cons t rest ih =>
    intro seen conflicting hinv n
    unfold collisionGo
    by_cases hc : t ∈ seen ∧ t ∉ conflicting
    · have hinv' : ∀ x ∈ t :: conflicting, x ∈ seen := by
        intro x hx
        rcases List.mem_cons.mp hx with h | h
        · exact h ▸ hc.1
        · exact hinv x h
      rw [if_pos hc, List.countP_cons, ih seen (t :: conflicting) hinv' n]
      by_cases hn : n = t
      · subst hn
        simp [hc.1, hc.2, List.count_cons]
      · simp [hn, Ne.symm hn, List.count_cons, List.mem_cons]
    · have hinv' : ∀ x ∈ conflicting, x ∈ t :: seen := by
        intro x hx
        exact List.mem_cons_of_mem t (hinv x hx)
      rw [if_neg hc, ih (t :: seen) conflicting hinv' n]
      by_cases h1 : n ∈ conflicting
      · simp [h1]
      · by_cases hn : n = t
        · subst hn
          have hts : n ∉ seen := fun hs => hc ⟨hs, h1⟩
          simp only [h1, if_false, List.mem_cons, true_or, if_true, hts,
            List.count_cons, if_neg hts]
          simp [List.count_cons]
        · simp [h1, hn, Ne.symm hn, List.count_cons, List.mem_cons]

theorem collisionGo_shape (rest : List String) :
    ∀ (seen conflicting : List String),
    (collisionGo rest seen conflicting).all
      (fun d => decide (d.loc = ⟨1, 1⟩ ∧ d.message = collisionMsg d.entity)) = true := by
  induction rest with
  | nil => intro seen conflicting; rfl
  | cons t rest ih =>
    intro seen conflicting
    unfold collisionGo
    by_cases hc : t ∈ seen ∧ t ∉ conflicting
    · rw [if_pos hc]
      simp only [List.all_cons, ih, Bool.and_true]
      simp
    · rw [if_neg hc]
      exact ih _ _

/-- C6: for every sequence of gathered type names, the collision checker emits
exactly one diagnostic per name occurring at least twice (whatever the number
of repeats) and none for a name occurring at most once; every emitted
diagnostic carries the placeholder location `{start: 1, end: 1}` and the
colliding name as its entity, with the collision message. -/
theorem c6_collision_one_diag_per_dup (types : List String) (n : String) :
    (validateNamingCollisionsInTypes types).countP (fun d => d.entity == n) =
      (if 2 ≤ types.count n then 1 else 0) ∧
    (validateNamingCollisionsInTypes types).all
      (fun d => decide (d.loc = ⟨1, 1⟩ ∧ d.message = collisionMsg d.entity)) = true := by
  constructor
  · have h := collisionGo_countP types [] []
      (by intro x hx; exact absurd hx (List.not_mem_nil x)) n
    simpa [validateNamingCollisionsInTypes] using h
  · exact collisionGo_shape types [] []

end GraphSchema

namespace GraphSchema

/-- C5: `@derivedFrom(field: "f")` with a well-formed argument whose origin
field unwraps to the named type `n`.  If `n` resolves to an entity `T` with no
field `f`, exactly the does-not-exist diagnostic results; if `T` has `f` but
`f`'s innermost named type does not resolve to an entity named like the origin
type, exactly the three-acceptable-forms diagnostic results; and if `n`
resolves to no entity at all, no diagnostic results. -/
theorem c5_derived_from_resolution (defs : List Definition) (d : Definition)
    (field : Field) (directive : Directive) (arg : Argument) (f n : String)
    (h1 : directive.arguments = [arg]) (h2 : arg.name = "field")
    (h3 : arg.value = Value.stringV f)
    (h4 : unwrapType field.type = TypeExpr.named n) :
    (entityTypeByName defs n = none →
      validateDerivedFromDirective defs d field directive = Except.ok []) ∧
    ∀ T, entityTypeByName defs n = some T →
      ((T.fields.find? fun tf => tf.name == f) = none →
        validateDerivedFromDirective defs d field directive =
          Except.ok [⟨directive.loc, d.name, derivedNoFieldMsg field.name f T.name⟩]) ∧
      ∀ bf m, (T.fields.find? fun tf => tf.name == f) = some bf →
        unwrapType bf.type = TypeExpr.named m →
        (entityTypeByName defs m = none →
          validateDerivedFromDirective defs d field directive =
            Except.ok [⟨directive.loc, d.name,
              derivedWrongTypeMsg field.name f T.name d.name⟩]) ∧
        ∀ E, entityTypeByName defs m = some E → E.name ≠ d.name →
          validateDerivedFromDirective defs d field directive =
            Except.ok [⟨directive.loc, d.name,
              derivedWrongTypeMsg field.name f T.name d.name⟩] := by
  constructor
  · intro hT
    simp only [validateDerivedFromDirective, h1, h2, h3, h4, tyName, hT, beq_self_eq_true,
      if_true]
  · intro T hT
    constructor
    · intro hfind
      simp only [validateDerivedFromDirective, h1, h2, h3, h4, tyName, hT, hfind,
        beq_self_eq_true, if_true]
    · intro bf m hfind h5
      constructor
      · intro hE
        simp only [validateDerivedFromDirective, h1, h2, h3, h4, tyName, hT, hfind, h5, hE,
          beq_self_eq_true, if_true]
      · intro E hE hne
        have hbe : (E.name == d.name) = false := by
          simp [beq_iff_eq, hne]
        simp only [validateDerivedFromDirective, h1, h2, h3, h4, tyName, hT, hfind, h5, hE,
          hbe, beq_self_eq_true, if_true, Bool.false_eq_true, if_false]

/-- The origin field of the C5 witness: `tokens: [Token!]!` carrying
`@derivedFrom(field: "nope")`. -/
def c5dir : Directive := ⟨"derivedFrom", l0, l0, [⟨"field", .stringV "nope"⟩]⟩

/-- The origin field for the C5 witness. -/
def c5tokens : Field :=
  ⟨"tokens", l0, .nonNull (.list (.nonNull (.named "Token"))), [], [c5dir]⟩

/-- The origin entity for the C5 witness. -/
def c5user : Definition :=
  ⟨"ObjectTypeDefinition", "User", l0, l0, [idFieldOK, c5tokens], [⟨"entity", l0, l0, []⟩]⟩

/-- The target entity for the C5 witness; it has no field `nope`. -/
def c5token : Definition :=
  ⟨"ObjectTypeDefinition", "Token", l0, l0, [idFieldOK], [⟨"entity", l0, l0, []⟩]⟩

/-- Witness for C5: on a concrete schema whose target entity `Token` lacks the
named field `nope`, exactly the does-not-exist diagnostic is produced. -/
theorem c5_derived_from_resolution_witness :
    validateDerivedFromDirective [c5user, c5token] c5user c5tokens c5dir =
      Except.ok [⟨l0, "User", derivedNoFieldMsg "tokens" "nope" "Token"⟩] :=
  ((c5_derived_from_resolution [c5user, c5token] c5user c5tokens c5dir
      ⟨"field", .stringV "nope"⟩ "nope" "Token" rfl rfl rfl rfl).2 c5token rfl).1 rfl

end GraphSchema

namespace GraphSchema

/-- C8: for an entity field whose innermost named type is `N`: if `N` is not
in the union of the builtin scalars, local type names and imported type names,
exactly one diagnostic results whose message contains `Unknown type N` and
additionally contains `Did you mean S?` whenever the ordered suggestion table
yields a first match `S`; a known `N` yields no diagnostic.  Concretely,
`address` suggests `Bytes` and `adress` yields no suggestion, and the
`adress` message contains no `Did you mean`. -/
theorem c8_unknown_type_and_suggestion (defs : List Definition) (d : Definition)
    (field : Field) (N : String) (imported : List String)
    (h : unwrapType field.type = TypeExpr.named N)
    (hg : gatherImportedTypes defs = Except.ok imported) :
    ((BUILTIN_SCALAR_TYPES ++ gatherLocalTypes defs ++ imported).contains N = true →
      validateInnerFieldType defs d field = Except.ok []) ∧
    ((BUILTIN_SCALAR_TYPES ++ gatherLocalTypes defs ++ imported).contains N = false →
      validateInnerFieldType defs d field =
        Except.ok [⟨field.loc, d.name, unknownTypeMessage field.name N⟩]) ∧
    List.IsInfix ("Unknown type '" ++ N ++ "'").data (unknownTypeMessage field.name N).data ∧
    (∀ S, typeSuggestion N = some S →
      List.IsInfix ("Did you mean '" ++ S ++ "'?").data
        (unknownTypeMessage field.name N).data) ∧
    typeSuggestion "address" = some "Bytes" ∧
    typeSuggestion "adress" = none ∧
    ¬ List.IsInfix "Did you mean".data (unknownTypeMessage "f" "adress").data := by
  refine ⟨?_, ?_, ?_, ?_, by decide, by decide, by decide⟩
  · intro hc
    simp only [validateInnerFieldType, h, tyName, hg, hc, if_true]
  · intro hc
    simp only [validateInnerFieldType, h, tyName, hg, hc, Bool.false_eq_true, if_false]
  · refine ⟨("Field '" ++ field.name ++ "': ").data,
      ("." ++
        match typeSuggestion N with
        | some s => " " ++ ("Did you mean '" ++ s ++ "'?")
        | none => "").data, ?_⟩
    simp [unknownTypeMessage, String.data_append, List.append_assoc]
  · intro S hS
    refine ⟨(("Field '" ++ field.name ++ "': ") ++ ("Unknown type '" ++ N ++ "'")).data
        ++ ".".data ++ " ".data, [], ?_⟩
    simp [unknownTypeMessage, hS, String.data_append, List.append_assoc]

/-- The entity of the C8 witness. -/
def c8def : Definition := ⟨"ObjectTypeDefinition", "C8", l0, l0, [], [⟨"entity", l0, l0, []⟩]⟩

/-- A field of the unknown type `address` for the C8 witness. -/
def c8field : Field := ⟨"a", l0, .named "address", [], []⟩

/-- Witness for C8: a field of unknown type `address` in an empty schema gets
exactly the unknown-type diagnostic (whose message carries the `Bytes`
suggestion). -/
theorem c8_unknown_type_and_suggestion_witness :
    validateInnerFieldType [] c8def c8field =
      Except.ok [⟨l0, "C8", unknownTypeMessage "a" "address"⟩] :=
  (c8_unknown_type_and_suggestion [] c8def c8field "address" [] rfl rfl).2.1 rfl

end GraphSchema
